import Mathlib

/-!
# gotracing: a verification development

A shallow embedding of `src/gotracing/tracing.go` (package `gotracing` of
`Hnampk/prometheuslog`) and theorems about it.

Conventions of the embedding.

* A Go `string` is a `List Char` (`Str`).  The two separators the code searches
  for, `/` and `.`, are ASCII, so indices counted in characters and in bytes cut
  the string at the same place.
* A panic is the `none` of `Option`; `log.Fatal` and a panic of the bootstrap are
  the `error` of `Except`.
* `time.Time` is an `Int`: nanoseconds since the Unix epoch.  `int64` results are
  computed with explicit wrap-around (`wrapInt64`) or saturation (`saturateInt64`),
  as the Go library does.
* A gauge child holds an `Int`; a histogram child holds the list of the values it
  observed, most recent first.  The backend stores both as `float64`, which is
  exact for whole numbers below `2 ^ 53`: every value observed here is a whole
  number of milliseconds of at most `9223372036854`, and the gauges count calls.
* A bucket boundary is a `Float64`: the code passes boundaries on unchanged and the
  backend only compares them, so a boundary is kept as the number it denotes, an
  infinity or not-a-number.
* The two operations that observe a duration end in an `Outcome`, which keeps the
  state reached when the backend panics.
-/

namespace gotracing

/-! ## Strings -/

/-- A Go string, as the list of its characters. -/
abbrev Str := List Char

/-- The call `strings.LastIndex(s, sep)` for a one-character `sep`: the index of the
last occurrence of `sep` in `s`, or `-1` when there is none. -/
def LastIndex (sep : Char) : Str → Int
  | [] => -1
  | c :: cs =>
    if 0 ≤ LastIndex sep cs then LastIndex sep cs + 1
    else if c = sep then 0
    else -1

/-- The slice expression `s[i:]`: panics (`none`) unless `0 ≤ i ≤ len(s)`. -/
def sliceFrom (s : Str) (i : Int) : Option Str :=
  if 0 ≤ i ∧ i ≤ (s.length : Int) then some (s.drop i.toNat) else none

/-- The character class `[a-zA-Z0-9 ]` of the regular expression at line 51. -/
def inClass (c : Char) : Bool :=
  ('a' ≤ c && c ≤ 'z') || ('A' ≤ c && c ≤ 'Z') || ('0' ≤ c && c ≤ '9') || c = ' '

/-- The call `regexp.MustCompile("[^a-zA-Z0-9 ]+").ReplaceAllString(s, repl)` for a
replacement `repl` without `$`: every maximal run of characters outside the class
is one match and is replaced by one copy of `repl`.  The flag says whether the
scan is inside a match. -/
def ReplaceAllString (repl : Str) : Bool → Str → Str
  | _, [] => []
  | inMatch, c :: cs =>
    if inClass c then c :: ReplaceAllString repl false cs
    else (if inMatch then [] else repl) ++ ReplaceAllString repl true cs

/-! ## Build identity and namespace (lines 39 to 52) -/

/-- The part of `debug.BuildInfo` the code reads: `Main.Path` and the paths of `Deps`. -/
structure BuildInfo where
  mainPath : Str
  deps : List Str

/-- Lines 44 to 49: the main module's path, else the first dependency's, else `""`. -/
def goModuleName (bi : BuildInfo) : Str :=
  if bi.mainPath ≠ [] then bi.mainPath
  else match bi.deps with
    | d :: _ => d
    | [] => []

/-- Lines 50 to 52: cut after the last `/`, then delete what the regular expression
matches. -/
def deriveNamespace (p : Str) : Option Str := do
  let seg ← sliceFrom p (LastIndex '/' p + 1)
  pure (ReplaceAllString [] false seg)

/-! ## Time (package `time`) -/

/-- A `time.Time`: nanoseconds since the Unix epoch.  The type covers far more than
the range of an `int64` count of nanoseconds, so it is not bounded here. -/
abbrev Time := Int

/-- A `time.Duration`: an `int64` count of nanoseconds. -/
abbrev Duration := Int

def maxInt64 : Int := 9223372036854775807

def minInt64 : Int := -9223372036854775808

/-- Two's complement wrap-around of an integer into `int64`. -/
def wrapInt64 (x : Int) : Int :=
  (x + 9223372036854775808) % 18446744073709551616 - 9223372036854775808

/-- Saturation of an integer at the ends of `int64`. -/
def saturateInt64 (x : Int) : Int :=
  if x < minInt64 then minInt64 else if maxInt64 < x then maxInt64 else x

/-- The zero value of `time.Time`: January 1, year 1, 00:00:00 UTC. -/
def zeroTime : Time := -62135596800000000000

/-- The method `Time.UnixNano`: seconds times `10 ^ 9` plus nanoseconds, in `int64`
arithmetic. -/
def UnixNano (t : Time) : Int := wrapInt64 t

/-- The call `time.Since(startTime)` when the clock reads `now`: `now.Sub(startTime)`,
which returns the largest or smallest duration when the difference does not fit.
Both instants are read on one clock: the wall and the monotonic reading that a
`time.Time` may carry are not told apart. -/
def Since (now startTime : Time) : Duration := saturateInt64 (now - startTime)

/-- The constant `int64(time.Millisecond)`. -/
def Millisecond : Int := 1000000

/-- The method `Duration.Milliseconds`: `int64(d) / 1e6`, rounded toward zero. -/
def Milliseconds (d : Duration) : Int := Int.tdiv d 1000000

/-- Lines 189 to 191, with the clock reading `now` for `time.Now()`. -/
def currentMillis (now : Time) : Int := Int.tdiv (UnixNano now) Millisecond

/-- Lines 193 to 197, with the clock reading `now` for `time.Now()`. -/
def currentMillisWithTime (now : Time) : Time × Int :=
  let nowMillis := Int.tdiv (UnixNano now) Millisecond
  (now, nowMillis)

/-! ## Bucket boundaries -/

/-- A `float64` as far as its order goes: not-a-number, an infinity, or the rational
number that a finite value denotes. -/
inductive Float64 where
  | nan
  | negInf
  | posInf
  | finite (q : ℚ)
deriving DecidableEq

instance instOfNatFloat64 (n : Nat) : OfNat Float64 n := ⟨Float64.finite n⟩

/-- The comparison `x >= y` of two `float64`: false when either is not-a-number. -/
def Float64.ge : Float64 → Float64 → Bool
  | Float64.nan, _ => false
  | _, Float64.nan => false
  | Float64.posInf, _ => true
  | _, Float64.negInf => true
  | Float64.negInf, _ => false
  | _, Float64.posInf => false
  | Float64.finite x, Float64.finite y => decide (y ≤ x)

/-- The check the backend makes on the boundaries when it creates a histogram child:
it panics with `histogram buckets must be in increasing order` as soon as a
boundary is `>=` the next one.  True when the check passes. -/
def bucketsInOrder : List Float64 → Bool
  | x :: y :: rest => !(x.ge y) && bucketsInOrder (y :: rest)
  | _ => true

/-! ## The metrics backend, as far as the code uses it -/

/-- The fields of `prometheus.GaugeOpts` and `prometheus.HistogramOpts` that the code
sets, buckets apart. -/
structure Opts where
  Namespace : Str
  Subsystem : Str
  Name : Str
  Help : Str
deriving DecidableEq

/-- The value held for label `l` in a family's children; a child that was never
touched holds `dflt`. -/
def child {α : Type} (dflt : α) (l : Str) : List (Str × α) → α
  | [] => dflt
  | (k, v) :: rest => if k = l then v else child dflt l rest

/-- Apply `f` to the child for label `l`, creating it from `dflt` when absent, as
`WithLabelValues(l)` followed by an update does. -/
def updateChild {α : Type} (dflt : α) (l : Str) (f : α → α) :
    List (Str × α) → List (Str × α)
  | [] => [(l, f dflt)]
  | (k, v) :: rest =>
    if k = l then (k, f v) :: rest else (k, v) :: updateChild dflt l f rest

/-- A `*prometheus.GaugeVec` with the one label name `func`: its options and the
value of each child. -/
structure GaugeVec where
  opts : Opts
  children : List (Str × Int)
deriving DecidableEq

/-- A `*prometheus.HistogramVec` with the one label name `func`: its options, its
bucket boundaries and, for each child, the values observed (most recent first). -/
structure HistogramVec where
  opts : Opts
  Buckets : List Float64
  children : List (Str × List Int)
deriving DecidableEq

/-- The current value of the gauge for label `l`. -/
def GaugeVec.value (g : GaugeVec) (l : Str) : Int := child 0 l g.children

/-- The call `g.WithLabelValues(l).Add(d)`. -/
def GaugeVec.Add (g : GaugeVec) (l : Str) (d : Int) : GaugeVec :=
  { g with children := updateChild 0 l (fun v => v + d) g.children }

/-- The values observed so far by the histogram for label `l`. -/
def HistogramVec.observed (h : HistogramVec) (l : Str) : List Int := child [] l h.children

/-- Whether a family already has a child for label `l`. -/
def hasChild {α : Type} (l : Str) (children : List (Str × α)) : Bool :=
  children.any (fun kv => kv.1 = l)

/-- The call `h.WithLabelValues(l).Observe(float64(v))`.  `WithLabelValues` returns
the child for `l` when there is one; otherwise it creates the child, and this is
where the backend checks the boundaries and panics (`none`) when they are not in
increasing order.  `Observe` then records `v` in the child. -/
def HistogramVec.Observe (h : HistogramVec) (l : Str) (v : Int) : Option HistogramVec :=
  if hasChild l h.children || bucketsInOrder h.Buckets then
    some { h with children := updateChild [] l (fun vs => v :: vs) h.children }
  else none

/-- The histogram after `v` was recorded in the child for `l`. -/
def HistogramVec.record (h : HistogramVec) (l : Str) (v : Int) : HistogramVec :=
  { h with children := updateChild [] l (fun vs => v :: vs) h.children }

/-- The function `prometheus.BuildFQName`: the non-empty ones among namespace and
subsystem, then the name, joined by `_`; empty when the name is empty. -/
def BuildFQName (namespace_ subsystem name : Str) : Str :=
  if name = [] then []
  else (if namespace_ = [] then [] else namespace_ ++ ['_'])
    ++ (if subsystem = [] then [] else subsystem ++ ['_']) ++ name

/-- The identity of a family: its namespace, subsystem and name. -/
def Opts.triple (o : Opts) : Str × Str × Str := (o.Namespace, o.Subsystem, o.Name)

/-- The fully qualified name of a family. -/
def Opts.fqName (o : Opts) : Str := BuildFQName o.Namespace o.Subsystem o.Name

/-! ## The tracer (lines 15 to 31) -/

/-- Lines 20 to 26. -/
structure MetricsManager where
  countStartMetrics : GaugeVec
  countEndMetrics : GaugeVec
  durationMetrics : HistogramVec
  countSucceedMetrics : GaugeVec
  countFailedMetrics : GaugeVec
deriving DecidableEq

/-- Lines 15 to 18; the logger is kept as the name it was obtained for. -/
structure Tracer where
  flogging : Str
  metrics : MetricsManager
deriving DecidableEq

/-- Line 30. -/
def ProcessTimeBuckets : List Float64 := [500, 1000, 1500, 2000, 4000, 6000, 10000]

/-- The options of the five families, in the order of their creation. -/
def MetricsManager.families (m : MetricsManager) : List Opts :=
  [m.countStartMetrics.opts, m.countEndMetrics.opts, m.durationMetrics.opts,
   m.countSucceedMetrics.opts, m.countFailedMetrics.opts]

/-! ## The logger and the process -/

inductive Level where
  | info
  | debug
deriving DecidableEq

/-- An argument of a formatted log call: a `%s` string or a `%d` integer. -/
inductive Arg where
  | str (s : Str)
  | int (n : Int)
deriving DecidableEq

/-- One call of `Infof` or `Debugf` on the root logger: severity, format string and
arguments. -/
structure LogEntry where
  level : Level
  format : Str
  args : List Arg
deriving DecidableEq

/-- The text of a log call: its format string with its arguments. -/
def LogEntry.text (e : LogEntry) : Str × List Arg := (e.format, e.args)

/-- The process-wide state: the package variable `namespace` of line 29 (`namespace_` here), the fully
qualified names held by the default registry, and the calls made on the root
logger (most recent first). -/
structure Process where
  namespace_ : Str
  registry : List Str
  log : List LogEntry
deriving DecidableEq

def Process.Infof (p : Process) (format : Str) (args : List Arg) : Process :=
  { p with log := { level := Level.info, format := format, args := args } :: p.log }

def Process.Debugf (p : Process) (format : Str) (args : List Arg) : Process :=
  { p with log := { level := Level.debug, format := format, args := args } :: p.log }

/-! ## The call stack and caller-name resolution (lines 182 to 187) -/

/-- A frame of the goroutine's stack, as the runtime's symbol table sees its program
counter: inside a function with a fully qualified name, or with no function known. -/
inductive Frame where
  | func (name : Str)
  | unknown
deriving DecidableEq

/-- The call `runtime.Callers(skip, pc)` on a stack whose first frame is that of
`runtime.Callers` itself: the frames from index `skip` on are written to the front
of `pc`, as many as fit; the other entries of `pc` keep their value. -/
def runtimeCallers (skip : Nat) (pc : List (Option Frame)) (stack : List Frame) :
    List (Option Frame) :=
  let found := (stack.drop skip).take pc.length
  found.map some ++ pc.drop found.length

/-- The call `runtime.FuncForPC(pc)`: `nil` (`none`) for the zero program counter and
for one that lies in no known function. -/
def FuncForPC : Option Frame → Option Str
  | some (Frame.func name) => some name
  | some Frame.unknown => none
  | none => none

/-- The method `(*runtime.Func).Name`, which returns `""` on a `nil` receiver. -/
def FuncName : Option Str → Str
  | some name => name
  | none => []

/-- The import path of the package. -/
def pkgPath : Str := "github.com/Hnampk/prometheuslog/gotracing".toList

/-- The frame of a method of `*Tracer`. -/
def methodFrame (method : String) : Frame :=
  Frame.func (pkgPath ++ ".(*Tracer).".toList ++ method.toList)

/-- Lines 182 to 187.  `stack` is the stack at the call of `getCallerFuncName`: the
frame of the `Tracer` method first, then the frame of the function that called the
method, and so on outward.  `none` is a panic (index or slice bounds out of range). -/
def getCallerFuncName (stack : List Frame) : Option Str := do
  let pc := runtimeCallers 3 (List.replicate 10 none)
    (Frame.func "runtime.Callers".toList
      :: Frame.func (pkgPath ++ ".getCallerFuncName".toList) :: stack)
  let pc0 ← pc[0]?
  let f := FuncForPC pc0
  sliceFrom (FuncName f) (LastIndex '.' (FuncName f) + 1)

/-! ## The recording operations (lines 115 to 180)

Each operation takes the tracer, the process state where it uses it, its Go
arguments, one clock reading for each `time.Now()` it performs (in the order of
evaluation), and `callers`, the stack at the call of the method: the frame of the
function that called the method first.  The gauges have no check that can fail, so
the six operations that touch only gauges end in an `Option`; the two that observe
a duration end in an `Outcome`. -/

def fmtStart : Str := "%s [%s] StartFunction at %d".toList

def fmtEnd : Str := "%s [%s] EndFunction at %d".toList

def fmtEndDuration : Str := "%s [%s] EndFunction at %d, duration=%dms".toList

/-- Lines 118 to 123. -/
def StartFunction (t : Tracer) (p : Process) (traceNo : Str) (now : Time)
    (callers : List Frame) : Option (Time × Tracer × Process) := do
  let (startTime, millis) := currentMillisWithTime now
  let p := p.Infof fmtStart [Arg.str p.namespace_, Arg.str traceNo, Arg.int millis]
  let l ← getCallerFuncName (methodFrame "StartFunction" :: callers)
  let m := t.metrics
  pure (startTime,
    { t with metrics := { m with countStartMetrics := m.countStartMetrics.Add l 1 } }, p)

/-- Lines 126 to 131. -/
def StartFunctionDebug (t : Tracer) (p : Process) (traceNo : Str) (now : Time)
    (callers : List Frame) : Option (Time × Tracer × Process) := do
  let (startTime, millis) := currentMillisWithTime now
  let p := p.Debugf fmtStart [Arg.str p.namespace_, Arg.str traceNo, Arg.int millis]
  let l ← getCallerFuncName (methodFrame "StartFunctionDebug" :: callers)
  let m := t.metrics
  pure (startTime,
    { t with metrics := { m with countStartMetrics := m.countStartMetrics.Add l 1 } }, p)

/-- Lines 136 to 139. -/
def EndFunction (t : Tracer) (p : Process) (traceNo : Str) (now : Time)
    (callers : List Frame) : Option (Tracer × Process) := do
  let p := p.Infof fmtEnd [Arg.str p.namespace_, Arg.str traceNo, Arg.int (currentMillis now)]
  let l ← getCallerFuncName (methodFrame "EndFunction" :: callers)
  let m := t.metrics
  pure ({ t with metrics := { m with countEndMetrics := m.countEndMetrics.Add l 1 } }, p)

/-- Lines 142 to 145. -/
def EndFunctionDebug (t : Tracer) (p : Process) (traceNo : Str) (now : Time)
    (callers : List Frame) : Option (Tracer × Process) := do
  let p := p.Debugf fmtEnd [Arg.str p.namespace_, Arg.str traceNo, Arg.int (currentMillis now)]
  let l ← getCallerFuncName (methodFrame "EndFunctionDebug" :: callers)
  let m := t.metrics
  pure ({ t with metrics := { m with countEndMetrics := m.countEndMetrics.Add l 1 } }, p)

/-- How a call of one of the two duration-observing operations ends: it returns, or
it panics; each with the tracer and the process state reached at that point. -/
inductive Outcome where
  | returned (t : Tracer) (p : Process)
  | panicked (t : Tracer) (p : Process)
deriving DecidableEq

/-- Whether the call returned. -/
def Outcome.isReturned : Outcome → Bool
  | Outcome.returned _ _ => true
  | Outcome.panicked _ _ => false

/-- The tracer at the end of the call. -/
def Outcome.tracer : Outcome → Tracer
  | Outcome.returned t _ => t
  | Outcome.panicked t _ => t

/-- The process state at the end of the call. -/
def Outcome.process : Outcome → Process
  | Outcome.returned _ p => p
  | Outcome.panicked _ p => p

/-- Lines 153 to 159.  `nowSince` is the clock reading inside `time.Since`, `nowLog`
the later one inside `currentMillis`.  Line 155 logs, line 157 increments the end
counter, line 158 resolves the label again and observes. -/
def EndFunctionWithDurationSince (t : Tracer) (p : Process) (traceNo : Str)
    (startTime : Time) (nowSince nowLog : Time) (callers : List Frame) : Outcome :=
  let duration := Since nowSince startTime
  let p := p.Infof fmtEndDuration
    [Arg.str p.namespace_, Arg.str traceNo, Arg.int (currentMillis nowLog),
     Arg.int (Milliseconds duration)]
  let stack := methodFrame "EndFunctionWithDurationSince" :: callers
  match getCallerFuncName stack with
  | none => Outcome.panicked t p
  | some l =>
    let t := { t with metrics :=
      { t.metrics with countEndMetrics := t.metrics.countEndMetrics.Add l 1 } }
    match getCallerFuncName stack with
    | none => Outcome.panicked t p
    | some l =>
      match t.metrics.durationMetrics.Observe l (Milliseconds duration) with
      | none => Outcome.panicked t p
      | some h => Outcome.returned { t with metrics := { t.metrics with durationMetrics := h } } p

/-- Lines 162 to 168. -/
def EndFunctionWithDurationSinceDebug (t : Tracer) (p : Process) (traceNo : Str)
    (startTime : Time) (nowSince nowLog : Time) (callers : List Frame) : Outcome :=
  let duration := Since nowSince startTime
  let p := p.Debugf fmtEndDuration
    [Arg.str p.namespace_, Arg.str traceNo, Arg.int (currentMillis nowLog),
     Arg.int (Milliseconds duration)]
  let stack := methodFrame "EndFunctionWithDurationSinceDebug" :: callers
  match getCallerFuncName stack with
  | none => Outcome.panicked t p
  | some l =>
    let t := { t with metrics :=
      { t.metrics with countEndMetrics := t.metrics.countEndMetrics.Add l 1 } }
    match getCallerFuncName stack with
    | none => Outcome.panicked t p
    | some l =>
      match t.metrics.durationMetrics.Observe l (Milliseconds duration) with
      | none => Outcome.panicked t p
      | some h => Outcome.returned { t with metrics := { t.metrics with durationMetrics := h } } p

/-- Lines 171 to 174; the named result `startTime` is never assigned. -/
def FunctionSucceed (t : Tracer) (_traceNo : Str) (callers : List Frame) :
    Option (Time × Tracer) := do
  let l ← getCallerFuncName (methodFrame "FunctionSucceed" :: callers)
  let m := t.metrics
  pure (zeroTime,
    { t with metrics := { m with countSucceedMetrics := m.countSucceedMetrics.Add l 1 } })

/-- Lines 177 to 180; the named result `startTime` is never assigned. -/
def FunctionFailed (t : Tracer) (_traceNo : Str) (callers : List Frame) :
    Option (Time × Tracer) := do
  let l ← getCallerFuncName (methodFrame "FunctionFailed" :: callers)
  let m := t.metrics
  pure (zeroTime,
    { t with metrics := { m with countFailedMetrics := m.countFailedMetrics.Add l 1 } })

/-- One call of `FunctionFailed` for each trace token of the list, in order, all from
the same function. -/
def callFunctionFailed (callers : List Frame) : Tracer → List Str → Option Tracer
  | t, [] => some t
  | t, traceNo :: rest => do
    let (_, t) ← FunctionFailed t traceNo callers
    callFunctionFailed callers t rest

/-! ## The bootstrap (lines 33 to 113) -/

/-- How the bootstrap ends when it does not return: `log.Fatal` or a panic. -/
inductive Abort where
  | fatal (msg : String)
  | panic (msg : String)
deriving DecidableEq

/-- Lines 54 to 94: the five families, none with a child yet. -/
def newMetricsManager (namespace_ moduleName : Str) (durationBuckets : List Float64) :
    MetricsManager :=
  { countStartMetrics :=
      { opts := { Namespace := namespace_, Subsystem := moduleName,
                  Name := "count_start".toList, Help := "Number of function called".toList },
        children := [] },
    countEndMetrics :=
      { opts := { Namespace := namespace_, Subsystem := moduleName,
                  Name := "count_end".toList, Help := "Number of function done".toList },
        children := [] },
    durationMetrics :=
      { opts := { Namespace := namespace_, Subsystem := moduleName,
                  Name := "duration".toList,
                  Help := "Amount of time spent to process a transaction".toList },
        Buckets := durationBuckets,
        children := [] },
    countSucceedMetrics :=
      { opts := { Namespace := namespace_, Subsystem := moduleName,
                  Name := "count_succeed".toList, Help := "Number of function done".toList },
        children := [] },
    countFailedMetrics :=
      { opts := { Namespace := namespace_, Subsystem := moduleName,
                  Name := "count_failed".toList, Help := "Number of function done".toList },
        children := [] } }

/-- What the bootstrap takes from outside this file: the result of
`debug.ReadBuildInfo()` (`none` when its second result is false), the names for
which `logger.MustGetLogger` of package `flogging` returns instead of panicking,
and the fully qualified names the metrics backend accepts as well formed. -/
structure Env where
  buildInfo : Option BuildInfo
  validLoggerName : Str → Bool
  validMetricName : Str → Bool

/-- The call `prometheus.MustRegister(cs...)` on the default registry, which holds
the fully qualified names `registry`: the collectors are registered one after the
other; a descriptor whose name is not well formed is a panic, and so is a name that
is already held. -/
def MustRegister (validMetricName : Str → Bool) (registry : List Str) :
    List Opts → Except Abort (List Str)
  | [] => Except.ok registry
  | o :: rest =>
    if validMetricName o.fqName = false then
      Except.error (Abort.panic "descriptor is invalid")
    else if o.fqName ∈ registry then
      Except.error (Abort.panic "duplicate metrics collector registration attempted")
    else MustRegister validMetricName (o.fqName :: registry) rest

/-- Lines 35 to 113. -/
def MustGetTracer (env : Env) (p : Process) (moduleName : Str)
    (durationBuckets : List Float64) : Except Abort (Tracer × Process) :=
  let durationBuckets := if durationBuckets.length = 0 then ProcessTimeBuckets else durationBuckets
  match env.buildInfo with
  | none => Except.error (Abort.fatal "Failed to read build info")
  | some bi =>
    match deriveNamespace (goModuleName bi) with
    | none => Except.error (Abort.panic "slice bounds out of range")
    | some cleanedName =>
      let p := { p with namespace_ := cleanedName }
      let metrics := newMetricsManager p.namespace_ moduleName durationBuckets
      match MustRegister env.validMetricName p.registry metrics.families with
      | Except.error e => Except.error e
      | Except.ok registry =>
        let p := { p with registry := registry }
        if env.validLoggerName moduleName then
          Except.ok ({ flogging := moduleName, metrics := metrics }, p)
        else Except.error (Abort.panic "invalid logger name")

/-! ## A concrete process, for evaluation -/

/-- A process before any bootstrap. -/
def freshProcess : Process := { namespace_ := [], registry := [], log := [] }

/-- Build information naming the main module `github.com/acme/my-app_v2!!`. -/
def acmeBuildInfo : BuildInfo :=
  { mainPath := "github.com/acme/my-app_v2!!".toList, deps := [] }

/-- The shape of a metric name, `[a-zA-Z_:][a-zA-Z0-9_:]*`. -/
def legacyMetricName : Str → Bool
  | [] => false
  | c :: cs =>
    (c.isAlpha || c = '_' || c = ':') && cs.all (fun d => d.isAlphanum || d = '_' || d = ':')

/-- An environment with that build information, where every non-empty logger name
is accepted. -/
def acmeEnv : Env :=
  { buildInfo := some acmeBuildInfo,
    validLoggerName := fun name => !name.isEmpty,
    validMetricName := legacyMetricName }

/-- The tracer of module `orders` in namespace `myappv2`, with the default buckets
and no sample yet. -/
def ordersTracer : Tracer :=
  { flogging := "orders".toList,
    metrics := newMetricsManager "myappv2".toList "orders".toList ProcessTimeBuckets }

/-- The tracer of module `orders` bootstrapped with the boundaries 3, 1, 2. -/
def unorderedTracer : Tracer :=
  { flogging := "orders".toList,
    metrics := newMetricsManager "myappv2".toList "orders".toList [3, 1, 2] }

/-- The process after the bootstrap of `ordersTracer`. -/
def ordersProcess : Process :=
  { namespace_ := "myappv2".toList,
    registry := ordersTracer.metrics.families.reverse.map Opts.fqName,
    log := [] }

/-! ## Lemmas on strings -/

theorem LastIndex_ge (sep : Char) (s : Str) : -1 ≤ LastIndex sep s := by
  induction s with
  | nil => simp [LastIndex]
  | cons c cs ih =>
    simp only [LastIndex]
    split_ifs <;> omega

/-- What `LastIndex` finds: nothing when `sep` does not occur, else the length of the
part before the last occurrence. -/
theorem LastIndex_cases (sep : Char) (s : Str) :
    (sep ∉ s ∧ LastIndex sep s = -1) ∨
    (∃ pre seg, s = pre ++ sep :: seg ∧ sep ∉ seg ∧ LastIndex sep s = (pre.length : Int)) := by
  induction s with
  | nil => left; simp [LastIndex]
  | cons c cs ih =>
    rcases ih with ⟨hnot, h⟩ | ⟨pre, seg, hs, hseg, h⟩
    · by_cases hc : c = sep
      · right
        refine ⟨[], cs, by simp [hc], hnot, ?_⟩
        simp [LastIndex, h, hc]
      · left
        refine ⟨?_, ?_⟩
        · simp only [List.mem_cons, not_or]
          exact ⟨fun e => hc e.symm, hnot⟩
        · simp [LastIndex, h, hc]
    · right
      refine ⟨c :: pre, seg, by simp [hs], hseg, ?_⟩
      have h0 : (0 : Int) ≤ (pre.length : Int) := Int.ofNat_nonneg _
      simp only [LastIndex, h, h0, if_true, List.length_cons]
      push_cast
      ring

/-- The slice after the last separator never panics, and yields the last segment. -/
theorem sliceFrom_LastIndex (sep : Char) (s : Str) :
    ∃ seg, sliceFrom s (LastIndex sep s + 1) = some seg ∧ sep ∉ seg ∧
      ((sep ∉ s ∧ seg = s) ∨ ∃ pre, s = pre ++ sep :: seg) := by
  rcases LastIndex_cases sep s with ⟨hnot, h⟩ | ⟨pre, seg, hs, hseg, h⟩
  · exact ⟨s, by simp [sliceFrom, h], hnot, Or.inl ⟨hnot, rfl⟩⟩
  · refine ⟨seg, ?_, hseg, Or.inr ⟨pre, hs⟩⟩
    have hle : (pre.length : Int) + 1 ≤ (s.length : Int) := by
      rw [hs]; simp only [List.length_append, List.length_cons]; push_cast; omega
    have h0 : (0 : Int) ≤ (pre.length : Int) + 1 := by omega
    have hnat : ((pre.length : Int) + 1).toNat = pre.length + 1 := by omega
    simp only [sliceFrom, h, h0, hle, and_self, if_true, hnat]
    rw [hs]
    simp

theorem ReplaceAllString_nil (b : Bool) (s : Str) :
    ReplaceAllString [] b s = s.filter inClass := by
  induction s generalizing b with
  | nil => simp [ReplaceAllString]
  | cons c cs ih =>
    by_cases hc : inClass c = true
    · simp [ReplaceAllString, hc, ih, List.filter_cons]
    · simp [ReplaceAllString, hc, ih, List.filter_cons]

/-! ## Lemmas on children -/

theorem child_updateChild_same {α : Type} (dflt : α) (l : Str) (f : α → α)
    (cs : List (Str × α)) :
    child dflt l (updateChild dflt l f cs) = f (child dflt l cs) := by
  induction cs with
  | nil => simp [child, updateChild]
  | cons kv rest ih =>
    obtain ⟨k, v⟩ := kv
    by_cases hk : k = l
    · simp [child, updateChild, hk]
    · simp [child, updateChild, hk, ih]

theorem child_updateChild_other {α : Type} (dflt : α) (l l' : Str) (f : α → α)
    (cs : List (Str × α)) (h : l' ≠ l) :
    child dflt l' (updateChild dflt l f cs) = child dflt l' cs := by
  induction cs with
  | nil => simp [child, updateChild, Ne.symm h]
  | cons kv rest ih =>
    obtain ⟨k, v⟩ := kv
    by_cases hk : k = l
    · have hk' : ¬ k = l' := fun e => h (e.symm.trans hk)
      have hl : ¬ l = l' := fun e => h e.symm
      simp [child, updateChild, hk, hk', hl]
    · by_cases hk' : k = l'
      · subst hk'
        simp [child, updateChild, hk]
      · simp [child, updateChild, hk, hk', ih]

theorem GaugeVec.value_Add (g : GaugeVec) (l l' : Str) (d : Int) :
    (g.Add l d).value l' = g.value l' + (if l' = l then d else 0) := by
  by_cases h : l' = l
  · subst h
    simp [GaugeVec.value, GaugeVec.Add, child_updateChild_same]
  · simp [GaugeVec.value, GaugeVec.Add, child_updateChild_other _ _ _ _ _ h, h]

theorem HistogramVec.observed_record (hv : HistogramVec) (l l' : Str) (v : Int) :
    (hv.record l v).observed l' = if l' = l then v :: hv.observed l' else hv.observed l' := by
  by_cases h : l' = l
  · subst h
    simp [HistogramVec.observed, HistogramVec.record, child_updateChild_same]
  · simp [HistogramVec.observed, HistogramVec.record, child_updateChild_other _ _ _ _ _ h, h]

/-- The observation goes through when the boundaries are in increasing order. -/
theorem HistogramVec.Observe_inOrder (hv : HistogramVec) (l : Str) (v : Int)
    (h : bucketsInOrder hv.Buckets = true) : hv.Observe l v = some (hv.record l v) := by
  simp [HistogramVec.Observe, HistogramVec.record, h]

/-- The observation panics when the child is to be created and the boundaries are not
in increasing order. -/
theorem HistogramVec.Observe_panics (hv : HistogramVec) (l : Str) (v : Int)
    (hc : hasChild l hv.children = false) (h : bucketsInOrder hv.Buckets = false) :
    hv.Observe l v = none := by
  simp [HistogramVec.Observe, hc, h]

/-! ## Lemmas on caller-name resolution -/

/-- The stack walk skips `runtime.Callers`, the helper and the method: what is
resolved is the first of `callers`. -/
theorem getCallerFuncName_eq (m : Frame) (callers : List Frame) :
    getCallerFuncName (m :: callers) =
      sliceFrom (FuncName (FuncForPC callers.head?))
        (LastIndex '.' (FuncName (FuncForPC callers.head?)) + 1) := by
  cases callers with
  | nil => simp [getCallerFuncName, runtimeCallers, List.replicate]
  | cons c cs => simp [getCallerFuncName, runtimeCallers]

/-- Caller-name resolution never panics. -/
theorem getCallerFuncName_some (m : Frame) (callers : List Frame) :
    ∃ l, getCallerFuncName (m :: callers) = some l := by
  obtain ⟨seg, h, -⟩ := sliceFrom_LastIndex '.' (FuncName (FuncForPC callers.head?))
  exact ⟨seg, by rw [getCallerFuncName_eq, h]⟩

/-! ## Namespace derivation -/

/-- C1. For every raw build-identity string `p` the derived namespace is the last
`/`-separated segment of `p` (all of `p` when it has no `/`) with the characters
outside `[A-Za-z0-9 ]` deleted and the others kept in order; it holds no character
outside the class; `"my-app_v2!!"` yields `"myappv2"`; and a bootstrap that returns
has stored this namespace and given it to its five families. -/
theorem namespace_is_filtered_last_segment (p : Str) :
    (∃ seg ns, '/' ∉ seg ∧ (('/' ∉ p ∧ seg = p) ∨ ∃ pre, p = pre ++ '/' :: seg) ∧
      deriveNamespace p = some ns ∧ ns = seg.filter inClass ∧
      (∀ c ∈ ns, inClass c = true) ∧
      ∀ (env : Env) (bi : BuildInfo) (pr : Process) (m : Str) (b : List Float64)
        (t : Tracer) (pr' : Process),
        env.buildInfo = some bi → goModuleName bi = p →
        MustGetTracer env pr m b = Except.ok (t, pr') →
          pr'.namespace_ = ns ∧ ∀ o ∈ t.metrics.families, o.Namespace = ns) ∧
    deriveNamespace "my-app_v2!!".toList = some "myappv2".toList := by
  refine ⟨?_, by decide⟩
  obtain ⟨seg, hslice, hsep, hseg⟩ := sliceFrom_LastIndex '/' p
  have hns : deriveNamespace p = some (seg.filter inClass) := by
    simp [deriveNamespace, hslice, ReplaceAllString_nil]
  refine ⟨seg, seg.filter inClass, hsep, hseg, hns, rfl, ?_, ?_⟩
  · intro c hc
    exact (List.mem_filter.mp hc).2
  · intro env bi pr m b t pr' hbi hp h
    subst hp
    simp only [MustGetTracer, hbi, hns] at h
    split at h
    · cases h
    · split_ifs at h <;>
      · cases h
        simp [newMetricsManager, MetricsManager.families]

theorem namespace_is_filtered_last_segment_witness :
    ∃ seg ns, '/' ∉ seg ∧
      (('/' ∉ "github.com/acme/my-app_v2!!".toList ∧ seg = "github.com/acme/my-app_v2!!".toList) ∨
        ∃ pre, "github.com/acme/my-app_v2!!".toList = pre ++ '/' :: seg) ∧
      deriveNamespace "github.com/acme/my-app_v2!!".toList = some ns ∧
      ns = seg.filter inClass ∧
      (∀ c ∈ ns, inClass c = true) ∧
      ∀ (env : Env) (bi : BuildInfo) (pr : Process) (m : Str) (b : List Float64)
        (t : Tracer) (pr' : Process),
        env.buildInfo = some bi → goModuleName bi = "github.com/acme/my-app_v2!!".toList →
        MustGetTracer env pr m b = Except.ok (t, pr') →
          pr'.namespace_ = ns ∧ ∀ o ∈ t.metrics.families, o.Namespace = ns :=
  (namespace_is_filtered_last_segment "github.com/acme/my-app_v2!!".toList).1


/-! ## Lemmas on family names and registration -/

/-- The names of the five families (lines 58, 66, 74, 83 and 91). -/
theorem families_names (ns m : Str) (b : List Float64) :
    (newMetricsManager ns m b).families.map Opts.Name =
      ["count_start".toList, "count_end".toList, "duration".toList,
       "count_succeed".toList, "count_failed".toList] := rfl

theorem mem_families (ns m : Str) (b : List Float64) (o : Opts)
    (h : o ∈ (newMetricsManager ns m b).families) :
    o.Namespace = ns ∧ o.Subsystem = m ∧
      o.Name ∈ ["count_start".toList, "count_end".toList, "duration".toList,
        "count_succeed".toList, "count_failed".toList] := by
  simp only [newMetricsManager, MetricsManager.families, List.mem_cons, List.mem_singleton,
    List.not_mem_nil, or_false] at h
  rcases h with h | h | h | h | h <;> subst h <;> simp

/-- None of the five names is a proper suffix of another. -/
theorem names_suffix_free :
    ∀ n1 ∈ ["count_start".toList, "count_end".toList, "duration".toList,
        "count_succeed".toList, "count_failed".toList],
      ∀ n2 ∈ ["count_start".toList, "count_end".toList, "duration".toList,
        "count_succeed".toList, "count_failed".toList],
      n2 <:+ n1 → n1 = n2 := by decide

/-- Two fully qualified names in one namespace, each ending in one of the five
names, are equal only for the same subsystem and the same name. -/
theorem BuildFQName_inj (ns m1 m2 n1 n2 : Str)
    (h1 : n1 ∈ ["count_start".toList, "count_end".toList, "duration".toList,
        "count_succeed".toList, "count_failed".toList])
    (h2 : n2 ∈ ["count_start".toList, "count_end".toList, "duration".toList,
        "count_succeed".toList, "count_failed".toList])
    (h : BuildFQName ns m1 n1 = BuildFQName ns m2 n2) : m1 = m2 ∧ n1 = n2 := by
  have hn1 : n1 ≠ [] := by
    intro e; subst e; revert h1; decide
  have hn2 : n2 ≠ [] := by
    intro e; subst e; revert h2; decide
  simp only [BuildFQName, hn1, hn2, if_false, List.append_assoc] at h
  have h' := List.append_cancel_left h
  have key : ∀ a b : Str, a ++ n1 = b ++ n2 → a = b ∧ n1 = n2 := by
    intro a b hab
    rcases List.append_eq_append_iff.mp hab with ⟨c, hb, hn⟩ | ⟨c, ha, hn⟩
    · have e : n1 = n2 := names_suffix_free n1 h1 n2 h2 ⟨c, hn.symm⟩
      refine ⟨?_, e⟩
      rw [e] at hn
      have hc : c = [] := by
        have := congrArg List.length hn
        simpa using this
      simp [hb, hc]
    · have e : n2 = n1 := names_suffix_free n2 h2 n1 h1 ⟨c, hn.symm⟩
      refine ⟨?_, e.symm⟩
      rw [e] at hn
      have hc : c = [] := by
        have := congrArg List.length hn
        simpa using this
      simp [ha, hc]
  obtain ⟨hm, hn⟩ := key _ _ h'
  refine ⟨?_, hn⟩
  by_cases e1 : m1 = [] <;> by_cases e2 : m2 = [] <;> simp [e1, e2] at hm
  · rw [e1, e2]
  · exact hm

/-- Registration succeeds when the names are new to the registry and differ from one
another. -/
theorem MustRegister_ok (valid : Str → Bool) (os : List Opts)
    (hvalid : ∀ o ∈ os, valid o.fqName = true) :
    ∀ registry : List Str, (∀ o ∈ os, o.fqName ∉ registry) → (os.map Opts.fqName).Nodup →
      ∃ registry', MustRegister valid registry os = Except.ok registry' := by
  induction os with
  | nil => intro registry _ _; exact ⟨registry, rfl⟩
  | cons o rest ih =>
    intro registry hfree hnd
    have ho : o.fqName ∉ registry := hfree o (List.mem_cons_self _ _)
    have hov : valid o.fqName = true := hvalid o (List.mem_cons_self _ _)
    rw [List.map_cons, List.nodup_cons] at hnd
    simp only [MustRegister, ho, hov, if_false, Bool.true_eq_false]
    apply ih (fun o' ho' => hvalid o' (List.mem_cons_of_mem _ ho'))
    · intro o' ho' hmem
      rcases List.mem_cons.mp hmem with e | hmem
      · exact hnd.1 (e ▸ List.mem_map_of_mem _ ho')
      · exact hfree o' (List.mem_cons_of_mem _ ho') hmem
    · exact hnd.2

/-- The five families of one tracer have five different fully qualified names. -/
theorem families_fqName_nodup (ns m : Str) (b : List Float64) :
    ((newMetricsManager ns m b).families.map Opts.fqName).Nodup := by
  have inj : ∀ n1 ∈ ["count_start".toList, "count_end".toList, "duration".toList,
        "count_succeed".toList, "count_failed".toList],
      ∀ n2 ∈ ["count_start".toList, "count_end".toList, "duration".toList,
        "count_succeed".toList, "count_failed".toList],
      BuildFQName ns m n1 = BuildFQName ns m n2 → n1 = n2 :=
    fun n1 h1 n2 h2 h => (BuildFQName_inj ns m m n1 n2 h1 h2 h).2
  have hmap : (newMetricsManager ns m b).families.map Opts.fqName =
      ["count_start".toList, "count_end".toList, "duration".toList,
        "count_succeed".toList, "count_failed".toList].map (BuildFQName ns m) := rfl
  rw [hmap]
  refine List.Nodup.map_on ?_ (by decide)
  intro x hx y hy hxy
  exact inj x hx y hy hxy

/-- The bootstrap returns when build information is available, the logger accepts
the module name, and each of the five names is well formed and not registered yet;
the tracer it returns holds the five fresh families. -/
theorem MustGetTracer_ok (env : Env) (bi : BuildInfo) (pr : Process) (m : Str)
    (b : List Float64) (hbi : env.buildInfo = some bi) (hv : env.validLoggerName m = true)
    (hfree : ∀ ns, deriveNamespace (goModuleName bi) = some ns →
      ∀ o ∈ (newMetricsManager ns m b).families,
        env.validMetricName o.fqName = true ∧ o.fqName ∉ pr.registry) :
    ∃ ns registry, deriveNamespace (goModuleName bi) = some ns ∧
      MustGetTracer env pr m b =
        Except.ok
          ({ flogging := m,
             metrics := newMetricsManager ns m
               (if b.length = 0 then ProcessTimeBuckets else b) },
           { namespace_ := ns, registry := registry, log := pr.log }) := by
  obtain ⟨seg, hslice, -⟩ := sliceFrom_LastIndex '/' (goModuleName bi)
  have hns : deriveNamespace (goModuleName bi) = some (seg.filter inClass) := by
    simp [deriveNamespace, hslice, ReplaceAllString_nil]
  obtain ⟨registry', hreg⟩ := MustRegister_ok env.validMetricName
    (newMetricsManager (seg.filter inClass) m
      (if b.length = 0 then ProcessTimeBuckets else b)).families
    (fun o ho => (hfree _ hns o ho).1) pr.registry
    (fun o ho => (hfree _ hns o ho).2) (families_fqName_nodup _ _ _)
  refine ⟨_, registry', hns, ?_⟩
  simp only [MustGetTracer, hbi, hns, hreg, hv]
  rfl

/-! ## Bucket selection -/

/-- C2. A bootstrap that can return (build information available, logger name
accepted, each of the five names well formed and not registered yet) does return,
and its duration histogram has exactly the default boundaries
`[500,1000,1500,2000,4000,6000,10000]` when no bucket was supplied, and exactly the
supplied list `b` when `b` is not empty. -/
theorem bucket_selection (env : Env) (bi : BuildInfo) (pr : Process) (m : Str)
    (b : List Float64) (hbi : env.buildInfo = some bi) (hv : env.validLoggerName m = true)
    (hfree : ∀ ns, deriveNamespace (goModuleName bi) = some ns →
      ∀ o ∈ (newMetricsManager ns m b).families,
        env.validMetricName o.fqName = true ∧ o.fqName ∉ pr.registry) :
    ∃ t pr', MustGetTracer env pr m b = Except.ok (t, pr') ∧
      (b = [] → t.metrics.durationMetrics.Buckets = [500, 1000, 1500, 2000, 4000, 6000, 10000]) ∧
      (b ≠ [] → t.metrics.durationMetrics.Buckets = b) := by
  obtain ⟨ns, registry, -, h⟩ := MustGetTracer_ok env bi pr m b hbi hv hfree
  refine ⟨_, _, h, ?_, ?_⟩
  · intro hb
    subst hb
    rfl
  · intro hb
    have : b.length ≠ 0 := fun e => hb (List.length_eq_zero.mp e)
    simp [newMetricsManager, this]

/-- The five names of module `orders` in namespace `myappv2` are well formed. -/
theorem orders_names_valid (ns : Str)
    (hns : deriveNamespace (goModuleName acmeBuildInfo) = some ns) (b : List Float64) :
    ∀ o ∈ (newMetricsManager ns "orders".toList b).families,
      acmeEnv.validMetricName o.fqName = true ∧ o.fqName ∉ freshProcess.registry := by
  have e : ns = "myappv2".toList := by
    have h : deriveNamespace (goModuleName acmeBuildInfo) = some "myappv2".toList := by decide
    rw [h] at hns
    exact (Option.some.inj hns).symm
  subst e
  intro o ho
  refine ⟨?_, by simp [freshProcess]⟩
  simp only [newMetricsManager, MetricsManager.families, List.mem_cons, List.mem_singleton,
    List.not_mem_nil, or_false] at ho
  rcases ho with h | h | h | h | h <;> subst h <;> decide

theorem bucket_selection_witness :
    acmeEnv.buildInfo = some acmeBuildInfo ∧
    acmeEnv.validLoggerName "orders".toList = true ∧
    (∃ t pr', MustGetTracer acmeEnv freshProcess "orders".toList [1, 2, 3]
        = Except.ok (t, pr') ∧
      (([1, 2, 3] : List Float64) = [] →
        t.metrics.durationMetrics.Buckets = [500, 1000, 1500, 2000, 4000, 6000, 10000]) ∧
      (([1, 2, 3] : List Float64) ≠ [] → t.metrics.durationMetrics.Buckets = [1, 2, 3])) ∧
    (∃ t pr', MustGetTracer acmeEnv freshProcess "orders".toList []
        = Except.ok (t, pr') ∧
      (([] : List Float64) = [] →
        t.metrics.durationMetrics.Buckets = [500, 1000, 1500, 2000, 4000, 6000, 10000]) ∧
      (([] : List Float64) ≠ [] → t.metrics.durationMetrics.Buckets = [])) :=
  ⟨rfl, by decide,
   bucket_selection acmeEnv acmeBuildInfo freshProcess "orders".toList [1, 2, 3] rfl
     (by decide) (fun ns hns => orders_names_valid ns hns [1, 2, 3]),
   bucket_selection acmeEnv acmeBuildInfo freshProcess "orders".toList [] rfl
     (by decide) (fun ns hns => orders_names_valid ns hns [])⟩

/-! ## Distinct modules -/

/-- C8. For every namespace and every two module names `m1 ≠ m2`, no family created
for `m1` has the (namespace, subsystem, name) triple of a family created for `m2`,
and none has its fully qualified name (the non-empty parts joined by `_`). -/
theorem families_distinguishable (ns m1 m2 : Str) (b1 b2 : List Float64) (hne : m1 ≠ m2) :
    ∀ o1 ∈ (newMetricsManager ns m1 b1).families,
      ∀ o2 ∈ (newMetricsManager ns m2 b2).families,
        o1.triple ≠ o2.triple ∧ o1.fqName ≠ o2.fqName := by
  intro o1 h1 o2 h2
  obtain ⟨hns1, hm1, hn1⟩ := mem_families ns m1 b1 o1 h1
  obtain ⟨hns2, hm2, hn2⟩ := mem_families ns m2 b2 o2 h2
  constructor
  · intro h
    have : o1.Subsystem = o2.Subsystem := by
      have := congrArg (fun x => x.2.1) h
      simpa [Opts.triple] using this
    exact hne (hm1 ▸ hm2 ▸ this)
  · intro h
    simp only [Opts.fqName, hns1, hm1, hns2, hm2] at h
    exact hne (BuildFQName_inj ns m1 m2 _ _ hn1 hn2 h).1

theorem families_distinguishable_witness :
    "orders".toList ≠ "billing".toList ∧
    ∀ o1 ∈ (newMetricsManager "myappv2".toList "orders".toList ProcessTimeBuckets).families,
      ∀ o2 ∈ (newMetricsManager "myappv2".toList "billing".toList [1, 2, 3]).families,
        o1.triple ≠ o2.triple ∧ o1.fqName ≠ o2.fqName :=
  ⟨by decide,
   families_distinguishable "myappv2".toList "orders".toList "billing".toList
     ProcessTimeBuckets [1, 2, 3] (by decide)⟩


/-! ## The recording operations -/

/-- The label resolved inside a method depends on the callers only, not on the
method. -/
theorem getCallerFuncName_method (m m' : Frame) (callers : List Frame) :
    getCallerFuncName (m :: callers) = getCallerFuncName (m' :: callers) := by
  rw [getCallerFuncName_eq, getCallerFuncName_eq]

theorem FunctionFailed_eq (t : Tracer) (traceNo : Str) (callers : List Frame) (L : Str)
    (hL : getCallerFuncName (methodFrame "FunctionFailed" :: callers) = some L) :
    FunctionFailed t traceNo callers =
      some (zeroTime, { t with metrics := { t.metrics with
        countFailedMetrics := t.metrics.countFailedMetrics.Add L 1 } }) := by
  simp only [FunctionFailed, hL]
  rfl

theorem FunctionSucceed_eq (t : Tracer) (traceNo : Str) (callers : List Frame) (L : Str)
    (hL : getCallerFuncName (methodFrame "FunctionSucceed" :: callers) = some L) :
    FunctionSucceed t traceNo callers =
      some (zeroTime, { t with metrics := { t.metrics with
        countSucceedMetrics := t.metrics.countSucceedMetrics.Add L 1 } }) := by
  simp only [FunctionSucceed, hL]
  rfl

/-- A run of `FunctionFailed` calls from one function returns, raises the failure
counter at the resolved label by the number of calls, and touches nothing else. -/
theorem callFunctionFailed_spec (callers : List Frame) (L : Str)
    (hL : getCallerFuncName (methodFrame "FunctionFailed" :: callers) = some L) :
    ∀ (tokens : List Str) (t : Tracer),
      ∃ t', callFunctionFailed callers t tokens = some t' ∧
        (∀ l, t'.metrics.countFailedMetrics.value l =
          t.metrics.countFailedMetrics.value l + (if l = L then (tokens.length : Int) else 0)) ∧
        t'.metrics.countStartMetrics = t.metrics.countStartMetrics ∧
        t'.metrics.countEndMetrics = t.metrics.countEndMetrics ∧
        t'.metrics.durationMetrics = t.metrics.durationMetrics ∧
        t'.metrics.countSucceedMetrics = t.metrics.countSucceedMetrics := by
  intro tokens
  induction tokens with
  | nil => intro t; exact ⟨t, rfl, by simp, rfl, rfl, rfl, rfl⟩
  | cons tok rest ih =>
    intro t
    obtain ⟨t', h, hv, h1, h2, h3, h4⟩ := ih { t with metrics := { t.metrics with
        countFailedMetrics := t.metrics.countFailedMetrics.Add L 1 } }
    refine ⟨t', ?_, ?_, h1, h2, h3, h4⟩
    · simp only [callFunctionFailed, FunctionFailed_eq t tok callers L hL]
      exact h
    · intro l
      rw [hv l]
      simp only [GaugeVec.value_Add, List.length_cons]
      split_ifs <;> push_cast <;> ring

/-- A run of `FunctionFailed` calls does not depend on the trace tokens. -/
theorem callFunctionFailed_tokens (callers : List Frame) :
    ∀ (tokens : List Str) (t : Tracer),
      callFunctionFailed callers t tokens =
        callFunctionFailed callers t (List.replicate tokens.length []) := by
  obtain ⟨L, hL⟩ := getCallerFuncName_some (methodFrame "FunctionFailed") callers
  intro tokens
  induction tokens with
  | nil => intro t; rfl
  | cons tok rest ih =>
    intro t
    simp only [callFunctionFailed, List.length_cons, List.replicate_succ,
      FunctionFailed_eq t _ callers L hL]
    exact ih _

/-- C4. Called `n` times from one function whose name resolves to `L` (once for each
trace token of a list of length `n`), `FunctionFailed` returns each time and raises
the failure counter at `L` by exactly `n`, changing no other label and none of the
start, end, duration and success families; the outcome is the same for any other
tokens; three calls on a fresh tracer leave 3 at `L`.  `FunctionSucceed` likewise
changes only the success counter at `L`, by 1, whatever the token. -/
theorem FunctionFailed_FunctionSucceed_effect (t : Tracer) (tokens : List Str)
    (callers : List Frame) :
    ∃ L, getCallerFuncName (methodFrame "FunctionFailed" :: callers) = some L ∧
      getCallerFuncName (methodFrame "FunctionSucceed" :: callers) = some L ∧
      (∃ t', callFunctionFailed callers t tokens = some t' ∧
        (∀ l, t'.metrics.countFailedMetrics.value l =
          t.metrics.countFailedMetrics.value l + (if l = L then (tokens.length : Int) else 0)) ∧
        t'.metrics.countStartMetrics = t.metrics.countStartMetrics ∧
        t'.metrics.countEndMetrics = t.metrics.countEndMetrics ∧
        t'.metrics.durationMetrics = t.metrics.durationMetrics ∧
        t'.metrics.countSucceedMetrics = t.metrics.countSucceedMetrics) ∧
      callFunctionFailed callers t tokens =
        callFunctionFailed callers t (List.replicate tokens.length []) ∧
      (∀ (ns m : Str) (b : List Float64) (tok1 tok2 tok3 : Str),
        ∃ t3, callFunctionFailed callers { flogging := m, metrics := newMetricsManager ns m b }
            [tok1, tok2, tok3] = some t3 ∧
          t3.metrics.countFailedMetrics.value L = 3) ∧
      (∃ t', (∀ traceNo, FunctionSucceed t traceNo callers = some (zeroTime, t')) ∧
        (∀ l, t'.metrics.countSucceedMetrics.value l =
          t.metrics.countSucceedMetrics.value l + (if l = L then 1 else 0)) ∧
        t'.metrics.countStartMetrics = t.metrics.countStartMetrics ∧
        t'.metrics.countEndMetrics = t.metrics.countEndMetrics ∧
        t'.metrics.durationMetrics = t.metrics.durationMetrics ∧
        t'.metrics.countFailedMetrics = t.metrics.countFailedMetrics) := by
  obtain ⟨L, hL⟩ := getCallerFuncName_some (methodFrame "FunctionFailed") callers
  have hL' : getCallerFuncName (methodFrame "FunctionSucceed" :: callers) = some L := by
    rw [getCallerFuncName_method _ (methodFrame "FunctionFailed"), hL]
  refine ⟨L, hL, hL', callFunctionFailed_spec callers L hL tokens t,
    callFunctionFailed_tokens callers tokens t, ?_, ?_⟩
  · intro ns m b tok1 tok2 tok3
    obtain ⟨t3, h, hv, -⟩ := callFunctionFailed_spec callers L hL [tok1, tok2, tok3]
      { flogging := m, metrics := newMetricsManager ns m b }
    refine ⟨t3, h, ?_⟩
    rw [hv L]
    simp [newMetricsManager, GaugeVec.value, child]
  · refine ⟨_, fun traceNo => FunctionSucceed_eq t traceNo callers L hL', ?_, rfl, rfl, rfl, rfl⟩
    intro l
    exact GaugeVec.value_Add _ _ _ _

/-- C5. `StartFunction`, called from a function whose name resolves to `L`, returns
the instant it read from the clock, adds exactly 1 to the start counter at `L`,
leaves the other four families as they were, and logs one info line whose
timestamp is the Unix nanoseconds of the returned instant divided by 1,000,000,
rounded toward zero. -/
theorem StartFunction_effect (t : Tracer) (p : Process) (traceNo : Str) (now : Time)
    (callers : List Frame) :
    ∃ L startTime t' p',
      getCallerFuncName (methodFrame "StartFunction" :: callers) = some L ∧
      StartFunction t p traceNo now callers = some (startTime, t', p') ∧
      startTime = now ∧
      (∀ l, t'.metrics.countStartMetrics.value l =
        t.metrics.countStartMetrics.value l + (if l = L then 1 else 0)) ∧
      t'.metrics.countEndMetrics = t.metrics.countEndMetrics ∧
      t'.metrics.durationMetrics = t.metrics.durationMetrics ∧
      t'.metrics.countSucceedMetrics = t.metrics.countSucceedMetrics ∧
      t'.metrics.countFailedMetrics = t.metrics.countFailedMetrics ∧
      p'.log = { level := Level.info, format := fmtStart,
                 args := [Arg.str p.namespace_, Arg.str traceNo,
                          Arg.int (Int.tdiv (UnixNano startTime) 1000000)] } :: p.log := by
  obtain ⟨L, hL⟩ := getCallerFuncName_some (methodFrame "StartFunction") callers
  have hop : StartFunction t p traceNo now callers =
      some (now,
        { t with metrics := { t.metrics with
            countStartMetrics := t.metrics.countStartMetrics.Add L 1 } },
        p.Infof fmtStart
          [Arg.str p.namespace_, Arg.str traceNo, Arg.int (Int.tdiv (UnixNano now) Millisecond)]) := by
    simp only [StartFunction, currentMillisWithTime, hL]
    rfl
  refine ⟨L, now, _, _, hL, hop, rfl, ?_, rfl, rfl, rfl, rfl, rfl⟩
  intro l
  exact GaugeVec.value_Add _ _ _ _

/-! ## The operations as equations, given the resolved label -/

theorem StartFunction_eq (t : Tracer) (p : Process) (traceNo : Str) (now : Time)
    (callers : List Frame) (L : Str) (hL : ∀ m, getCallerFuncName (m :: callers) = some L) :
    StartFunction t p traceNo now callers =
      some (now,
        { t with metrics := { t.metrics with
            countStartMetrics := t.metrics.countStartMetrics.Add L 1 } },
        { p with log :=
            { level := Level.info, format := fmtStart,
              args := [Arg.str p.namespace_, Arg.str traceNo,
              Arg.int (Int.tdiv (UnixNano now) Millisecond)] } :: p.log }) := by
  simp only [StartFunction, currentMillisWithTime, hL]
  rfl

theorem StartFunctionDebug_eq (t : Tracer) (p : Process) (traceNo : Str) (now : Time)
    (callers : List Frame) (L : Str) (hL : ∀ m, getCallerFuncName (m :: callers) = some L) :
    StartFunctionDebug t p traceNo now callers =
      some (now,
        { t with metrics := { t.metrics with
            countStartMetrics := t.metrics.countStartMetrics.Add L 1 } },
        { p with log :=
            { level := Level.debug, format := fmtStart,
              args := [Arg.str p.namespace_, Arg.str traceNo,
              Arg.int (Int.tdiv (UnixNano now) Millisecond)] } :: p.log }) := by
  simp only [StartFunctionDebug, currentMillisWithTime, hL]
  rfl

theorem EndFunction_eq (t : Tracer) (p : Process) (traceNo : Str) (now : Time)
    (callers : List Frame) (L : Str) (hL : ∀ m, getCallerFuncName (m :: callers) = some L) :
    EndFunction t p traceNo now callers =
      some ({ t with metrics := { t.metrics with
            countEndMetrics := t.metrics.countEndMetrics.Add L 1 } },
        { p with log :=
            { level := Level.info, format := fmtEnd,
              args := [Arg.str p.namespace_, Arg.str traceNo,
              Arg.int (currentMillis now)] } :: p.log }) := by
  simp only [EndFunction, hL]
  rfl

theorem EndFunctionDebug_eq (t : Tracer) (p : Process) (traceNo : Str) (now : Time)
    (callers : List Frame) (L : Str) (hL : ∀ m, getCallerFuncName (m :: callers) = some L) :
    EndFunctionDebug t p traceNo now callers =
      some ({ t with metrics := { t.metrics with
            countEndMetrics := t.metrics.countEndMetrics.Add L 1 } },
        { p with log :=
            { level := Level.debug, format := fmtEnd,
              args := [Arg.str p.namespace_, Arg.str traceNo,
              Arg.int (currentMillis now)] } :: p.log }) := by
  simp only [EndFunctionDebug, hL]
  rfl

/-- The duration-observing operation returns when the child exists or the boundaries
are in increasing order: the end counter is incremented and the duration observed. -/
theorem EndFunctionWithDurationSince_returns (t : Tracer) (p : Process) (traceNo : Str)
    (startTime nowSince nowLog : Time) (callers : List Frame) (L : Str)
    (hL : ∀ m, getCallerFuncName (m :: callers) = some L)
    (hcheck : (hasChild L t.metrics.durationMetrics.children
      || bucketsInOrder t.metrics.durationMetrics.Buckets) = true) :
    EndFunctionWithDurationSince t p traceNo startTime nowSince nowLog callers =
      Outcome.returned
        { t with metrics := { t.metrics with
            countEndMetrics := t.metrics.countEndMetrics.Add L 1,
            durationMetrics :=
              t.metrics.durationMetrics.record L (Milliseconds (Since nowSince startTime)) } }
        { p with log :=
            { level := Level.info, format := fmtEndDuration,
              args := [Arg.str p.namespace_, Arg.str traceNo, Arg.int (currentMillis nowLog),
                Arg.int (Milliseconds (Since nowSince startTime))] } :: p.log } := by
  simp only [EndFunctionWithDurationSince, hL, HistogramVec.Observe, hcheck]
  rfl

/-- The duration-observing operation panics when the child is to be created and the
boundaries are not in increasing order: the end counter is incremented, nothing is
observed. -/
theorem EndFunctionWithDurationSince_panics (t : Tracer) (p : Process) (traceNo : Str)
    (startTime nowSince nowLog : Time) (callers : List Frame) (L : Str)
    (hL : ∀ m, getCallerFuncName (m :: callers) = some L)
    (hcheck : (hasChild L t.metrics.durationMetrics.children
      || bucketsInOrder t.metrics.durationMetrics.Buckets) = false) :
    EndFunctionWithDurationSince t p traceNo startTime nowSince nowLog callers =
      Outcome.panicked
        { t with metrics := { t.metrics with
            countEndMetrics := t.metrics.countEndMetrics.Add L 1 } }
        { p with log :=
            { level := Level.info, format := fmtEndDuration,
              args := [Arg.str p.namespace_, Arg.str traceNo, Arg.int (currentMillis nowLog),
                Arg.int (Milliseconds (Since nowSince startTime))] } :: p.log } := by
  simp only [EndFunctionWithDurationSince, hL, HistogramVec.Observe, hcheck]
  rfl

theorem EndFunctionWithDurationSinceDebug_returns (t : Tracer) (p : Process) (traceNo : Str)
    (startTime nowSince nowLog : Time) (callers : List Frame) (L : Str)
    (hL : ∀ m, getCallerFuncName (m :: callers) = some L)
    (hcheck : (hasChild L t.metrics.durationMetrics.children
      || bucketsInOrder t.metrics.durationMetrics.Buckets) = true) :
    EndFunctionWithDurationSinceDebug t p traceNo startTime nowSince nowLog callers =
      Outcome.returned
        { t with metrics := { t.metrics with
            countEndMetrics := t.metrics.countEndMetrics.Add L 1,
            durationMetrics :=
              t.metrics.durationMetrics.record L (Milliseconds (Since nowSince startTime)) } }
        { p with log :=
            { level := Level.debug, format := fmtEndDuration,
              args := [Arg.str p.namespace_, Arg.str traceNo, Arg.int (currentMillis nowLog),
                Arg.int (Milliseconds (Since nowSince startTime))] } :: p.log } := by
  simp only [EndFunctionWithDurationSinceDebug, hL, HistogramVec.Observe, hcheck]
  rfl

theorem EndFunctionWithDurationSinceDebug_panics (t : Tracer) (p : Process) (traceNo : Str)
    (startTime nowSince nowLog : Time) (callers : List Frame) (L : Str)
    (hL : ∀ m, getCallerFuncName (m :: callers) = some L)
    (hcheck : (hasChild L t.metrics.durationMetrics.children
      || bucketsInOrder t.metrics.durationMetrics.Buckets) = false) :
    EndFunctionWithDurationSinceDebug t p traceNo startTime nowSince nowLog callers =
      Outcome.panicked
        { t with metrics := { t.metrics with
            countEndMetrics := t.metrics.countEndMetrics.Add L 1 } }
        { p with log :=
            { level := Level.debug, format := fmtEndDuration,
              args := [Arg.str p.namespace_, Arg.str traceNo, Arg.int (currentMillis nowLog),
                Arg.int (Milliseconds (Since nowSince startTime))] } :: p.log } := by
  simp only [EndFunctionWithDurationSinceDebug, hL, HistogramVec.Observe, hcheck]
  rfl

/-- Boundaries in increasing order pass the check of the backend whatever the
children. -/
theorem check_of_inOrder (L : Str) (hv : HistogramVec)
    (hb : bucketsInOrder hv.Buckets = true) :
    (hasChild L hv.children || bucketsInOrder hv.Buckets) = true := by
  simp [hb]

/-- Every method resolves the same label for the same callers, without panic. -/
theorem getCallerFuncName_all (callers : List Frame) :
    ∃ L, ∀ m, getCallerFuncName (m :: callers) = some L := by
  obtain ⟨L, hL⟩ := getCallerFuncName_some Frame.unknown callers
  exact ⟨L, fun m => by rw [getCallerFuncName_method m Frame.unknown, hL]⟩

/-- With no frame to resolve, or no function known for it, the label is empty. -/
theorem getCallerFuncName_failed (callers : List Frame)
    (hfail : callers.head? = none ∨ callers.head? = some Frame.unknown) :
    ∀ m, getCallerFuncName (m :: callers) = some [] := by
  intro m
  rw [getCallerFuncName_eq]
  rcases hfail with h | h <;> rw [h] <;> rfl

/-! ## Ending with a duration -/

/-- C3, as stated, fails: the bootstrap of module `orders` with the boundaries
3, 1, 2 returns, and on that tracer `EndFunctionWithDurationSince`, called from
`Handler`, increments the end counter at `Handler`, then panics: nothing is
observed in the duration histogram. -/
theorem unordered_buckets_panic_without_observation :
    MustGetTracer acmeEnv freshProcess "orders".toList [3, 1, 2]
      = Except.ok (unorderedTracer, ordersProcess) ∧
    (EndFunctionWithDurationSince unorderedTracer ordersProcess "tx-1".toList
        1793491200000000000 1793491200010000000 1793491200010000500
        [Frame.func "main.Handler".toList]).isReturned = false ∧
    (EndFunctionWithDurationSince unorderedTracer ordersProcess "tx-1".toList
        1793491200000000000 1793491200010000000 1793491200010000500
        [Frame.func "main.Handler".toList]).tracer.metrics.countEndMetrics.value
          "Handler".toList = 1 ∧
    (EndFunctionWithDurationSince unorderedTracer ordersProcess "tx-1".toList
        1793491200000000000 1793491200010000000 1793491200010000500
        [Frame.func "main.Handler".toList]).tracer.metrics.durationMetrics.observed
          "Handler".toList = [] :=
  ⟨rfl, rfl, rfl, rfl⟩

/-- C3, amended. On a tracer whose bucket boundaries are in increasing order (each
below the next), `EndFunctionWithDurationSince`, called from a function whose name
resolves to `L`, returns, adds exactly 1 to the end counter at `L`, records exactly
one more observation in the duration histogram at `L`, and leaves every other label
of the two and the start, success and failure counters as they were. -/
theorem EndFunctionWithDurationSince_effect (t : Tracer) (p : Process) (traceNo : Str)
    (startTime nowSince nowLog : Time) (callers : List Frame)
    (hb : bucketsInOrder t.metrics.durationMetrics.Buckets = true) :
    ∃ L t' p',
      getCallerFuncName (methodFrame "EndFunctionWithDurationSince" :: callers) = some L ∧
      EndFunctionWithDurationSince t p traceNo startTime nowSince nowLog callers
        = Outcome.returned t' p' ∧
      (∀ l, t'.metrics.countEndMetrics.value l =
        t.metrics.countEndMetrics.value l + (if l = L then 1 else 0)) ∧
      (∀ l, t'.metrics.durationMetrics.observed l =
        if l = L then Milliseconds (Since nowSince startTime) :: t.metrics.durationMetrics.observed l
        else t.metrics.durationMetrics.observed l) ∧
      t'.metrics.countStartMetrics = t.metrics.countStartMetrics ∧
      t'.metrics.countSucceedMetrics = t.metrics.countSucceedMetrics ∧
      t'.metrics.countFailedMetrics = t.metrics.countFailedMetrics := by
  obtain ⟨L, hL⟩ := getCallerFuncName_all callers
  refine ⟨L, _, _, hL _,
    EndFunctionWithDurationSince_returns t p traceNo startTime nowSince nowLog callers L hL
      (check_of_inOrder L _ hb), ?_, ?_, rfl, rfl, rfl⟩
  · intro l
    exact GaugeVec.value_Add _ _ _ _
  · intro l
    exact HistogramVec.observed_record _ _ _ _

theorem EndFunctionWithDurationSince_effect_witness :
    bucketsInOrder ordersTracer.metrics.durationMetrics.Buckets = true ∧
    ∃ L t' p',
      getCallerFuncName (methodFrame "EndFunctionWithDurationSince"
        :: [Frame.func "main.Handler".toList]) = some L ∧
      EndFunctionWithDurationSince ordersTracer ordersProcess "tx-1".toList
        1793491200000000000 1793491200010000000 1793491200010000500
        [Frame.func "main.Handler".toList] = Outcome.returned t' p' ∧
      (∀ l, t'.metrics.countEndMetrics.value l =
        ordersTracer.metrics.countEndMetrics.value l + (if l = L then 1 else 0)) ∧
      (∀ l, t'.metrics.durationMetrics.observed l =
        if l = L then Milliseconds (Since 1793491200010000000 1793491200000000000)
          :: ordersTracer.metrics.durationMetrics.observed l
        else ordersTracer.metrics.durationMetrics.observed l) ∧
      t'.metrics.countStartMetrics = ordersTracer.metrics.countStartMetrics ∧
      t'.metrics.countSucceedMetrics = ordersTracer.metrics.countSucceedMetrics ∧
      t'.metrics.countFailedMetrics = ordersTracer.metrics.countFailedMetrics :=
  ⟨rfl,
   EndFunctionWithDurationSince_effect ordersTracer ordersProcess "tx-1".toList
     1793491200000000000 1793491200010000000 1793491200010000500
     [Frame.func "main.Handler".toList] rfl⟩

/-! ## Failure of caller-name resolution -/

/-- C7, as stated, fails: with no frame to resolve, on the tracer bootstrapped with
the boundaries 3, 1, 2, the label is empty and `EndFunctionWithDurationSince` does
not complete: it panics and records no observation under the empty label. -/
theorem unresolved_caller_unordered_buckets_panic :
    getCallerFuncName [methodFrame "EndFunctionWithDurationSince"] = some [] ∧
    (EndFunctionWithDurationSince unorderedTracer ordersProcess "tx-1".toList
        1793491200000000000 1793491200010000000 1793491200010000500 []).isReturned = false ∧
    (EndFunctionWithDurationSince unorderedTracer ordersProcess "tx-1".toList
        1793491200000000000 1793491200010000000 1793491200010000500
        []).tracer.metrics.durationMetrics.observed [] = [] :=
  ⟨rfl, rfl, rfl⟩

/-- C7, amended. When caller-name resolution fails (the stack walk fills no frame, or
no function is known for the frame), `getCallerFuncName` does not panic and returns
the empty label; the six operations that touch only counters return and record
their sample under the empty label; and so do the two that observe a duration, on a
tracer whose bucket boundaries are in increasing order. -/
theorem resolution_failure_degrades (t : Tracer) (p : Process) (traceNo : Str)
    (startTime now nowLog : Time) (callers : List Frame)
    (hfail : callers.head? = none ∨ callers.head? = some Frame.unknown) :
    (∀ m, getCallerFuncName (m :: callers) = some []) ∧
    (∃ r, StartFunction t p traceNo now callers = some r ∧
      r.2.1.metrics.countStartMetrics.value [] = t.metrics.countStartMetrics.value [] + 1) ∧
    (∃ r, StartFunctionDebug t p traceNo now callers = some r ∧
      r.2.1.metrics.countStartMetrics.value [] = t.metrics.countStartMetrics.value [] + 1) ∧
    (∃ r, EndFunction t p traceNo now callers = some r ∧
      r.1.metrics.countEndMetrics.value [] = t.metrics.countEndMetrics.value [] + 1) ∧
    (∃ r, EndFunctionDebug t p traceNo now callers = some r ∧
      r.1.metrics.countEndMetrics.value [] = t.metrics.countEndMetrics.value [] + 1) ∧
    (∃ r, FunctionSucceed t traceNo callers = some r ∧
      r.2.metrics.countSucceedMetrics.value [] = t.metrics.countSucceedMetrics.value [] + 1) ∧
    (∃ r, FunctionFailed t traceNo callers = some r ∧
      r.2.metrics.countFailedMetrics.value [] = t.metrics.countFailedMetrics.value [] + 1) ∧
    (bucketsInOrder t.metrics.durationMetrics.Buckets = true →
      (∃ t' p', EndFunctionWithDurationSince t p traceNo startTime now nowLog callers
          = Outcome.returned t' p' ∧
        t'.metrics.countEndMetrics.value [] = t.metrics.countEndMetrics.value [] + 1 ∧
        t'.metrics.durationMetrics.observed [] =
          Milliseconds (Since now startTime) :: t.metrics.durationMetrics.observed []) ∧
      (∃ t' p', EndFunctionWithDurationSinceDebug t p traceNo startTime now nowLog callers
          = Outcome.returned t' p' ∧
        t'.metrics.countEndMetrics.value [] = t.metrics.countEndMetrics.value [] + 1 ∧
        t'.metrics.durationMetrics.observed [] =
          Milliseconds (Since now startTime) :: t.metrics.durationMetrics.observed [])) := by
  have hL := getCallerFuncName_failed callers hfail
  refine ⟨hL, ⟨_, StartFunction_eq t p traceNo now callers [] hL, ?_⟩,
    ⟨_, StartFunctionDebug_eq t p traceNo now callers [] hL, ?_⟩,
    ⟨_, EndFunction_eq t p traceNo now callers [] hL, ?_⟩,
    ⟨_, EndFunctionDebug_eq t p traceNo now callers [] hL, ?_⟩,
    ⟨_, FunctionSucceed_eq t traceNo callers [] (hL _), ?_⟩,
    ⟨_, FunctionFailed_eq t traceNo callers [] (hL _), ?_⟩, ?_⟩
  · simp [GaugeVec.value_Add]
  · simp [GaugeVec.value_Add]
  · simp [GaugeVec.value_Add]
  · simp [GaugeVec.value_Add]
  · simp [GaugeVec.value_Add]
  · simp [GaugeVec.value_Add]
  · intro hb
    refine ⟨⟨_, _, EndFunctionWithDurationSince_returns t p traceNo startTime now nowLog
        callers [] hL (check_of_inOrder [] _ hb), ?_, ?_⟩,
      ⟨_, _, EndFunctionWithDurationSinceDebug_returns t p traceNo startTime now nowLog
        callers [] hL (check_of_inOrder [] _ hb), ?_, ?_⟩⟩ <;>
    simp [GaugeVec.value_Add, HistogramVec.observed_record]

theorem resolution_failure_degrades_witness :
    ((([] : List Frame).head? = none ∨ ([] : List Frame).head? = some Frame.unknown)) ∧
    bucketsInOrder ordersTracer.metrics.durationMetrics.Buckets = true ∧
    (∀ m, getCallerFuncName (m :: []) = some []) ∧
    (∃ r, FunctionFailed ordersTracer "tx-1".toList [] = some r ∧
      r.2.metrics.countFailedMetrics.value []
        = ordersTracer.metrics.countFailedMetrics.value [] + 1) ∧
    (∃ r, StartFunction ordersTracer ordersProcess "tx-1".toList 1793491200000000000 []
        = some r ∧
      r.2.1.metrics.countStartMetrics.value []
        = ordersTracer.metrics.countStartMetrics.value [] + 1) ∧
    (∃ t' p', EndFunctionWithDurationSince ordersTracer ordersProcess "tx-1".toList
        1793491190000000000 1793491200000000000 1793491200000000001 []
          = Outcome.returned t' p' ∧
      t'.metrics.countEndMetrics.value [] = ordersTracer.metrics.countEndMetrics.value [] + 1 ∧
      t'.metrics.durationMetrics.observed [] =
        Milliseconds (Since 1793491200000000000 1793491190000000000)
          :: ordersTracer.metrics.durationMetrics.observed []) ∧
    (∃ t' p', EndFunctionWithDurationSinceDebug ordersTracer ordersProcess "tx-1".toList
        1793491190000000000 1793491200000000000 1793491200000000001 []
          = Outcome.returned t' p' ∧
      t'.metrics.countEndMetrics.value [] = ordersTracer.metrics.countEndMetrics.value [] + 1 ∧
      t'.metrics.durationMetrics.observed [] =
        Milliseconds (Since 1793491200000000000 1793491190000000000)
          :: ordersTracer.metrics.durationMetrics.observed []) :=
  ⟨Or.inl rfl, rfl,
   (resolution_failure_degrades ordersTracer ordersProcess "tx-1".toList
     1793491190000000000 1793491200000000000 1793491200000000001 [] (Or.inl rfl)).1,
   (resolution_failure_degrades ordersTracer ordersProcess "tx-1".toList
     1793491190000000000 1793491200000000000 1793491200000000001 [] (Or.inl rfl)).2.2.2.2.2.2.1,
   (resolution_failure_degrades ordersTracer ordersProcess "tx-1".toList
     1793491190000000000 1793491200000000000 1793491200000000001 [] (Or.inl rfl)).2.1,
   ((resolution_failure_degrades ordersTracer ordersProcess "tx-1".toList
     1793491190000000000 1793491200000000000 1793491200000000001 [] (Or.inl rfl)).2.2.2.2.2.2.2
       rfl).1,
   ((resolution_failure_degrades ordersTracer ordersProcess "tx-1".toList
     1793491190000000000 1793491200000000000 1793491200000000001 [] (Or.inl rfl)).2.2.2.2.2.2.2
       rfl).2⟩

/-! ## Debug variants -/

/-- C10. Each Debug variant ends exactly as its info-level counterpart: the same
tracer with the same metrics (and for `StartFunctionDebug` the same returned time),
and the same process state except for the severity of the one log line added, whose
format and arguments are identical.  For the pair that observes a duration this
holds when both return and when both panic, and both return when the bucket
boundaries are in increasing order. -/
theorem debug_variants_same_metrics (t : Tracer) (p : Process) (traceNo : Str)
    (startTime now nowLog : Time) (callers : List Frame) :
    (∃ st t' e ed,
      StartFunction t p traceNo now callers = some (st, t', { p with log := e :: p.log }) ∧
      StartFunctionDebug t p traceNo now callers = some (st, t', { p with log := ed :: p.log }) ∧
      e.level = Level.info ∧ ed.level = Level.debug ∧ ed.text = e.text) ∧
    (∃ t' e ed,
      EndFunction t p traceNo now callers = some (t', { p with log := e :: p.log }) ∧
      EndFunctionDebug t p traceNo now callers = some (t', { p with log := ed :: p.log }) ∧
      e.level = Level.info ∧ ed.level = Level.debug ∧ ed.text = e.text) ∧
    (∃ t' e ed,
      ((EndFunctionWithDurationSince t p traceNo startTime now nowLog callers
          = Outcome.returned t' { p with log := e :: p.log } ∧
        EndFunctionWithDurationSinceDebug t p traceNo startTime now nowLog callers
          = Outcome.returned t' { p with log := ed :: p.log }) ∨
       (EndFunctionWithDurationSince t p traceNo startTime now nowLog callers
          = Outcome.panicked t' { p with log := e :: p.log } ∧
        EndFunctionWithDurationSinceDebug t p traceNo startTime now nowLog callers
          = Outcome.panicked t' { p with log := ed :: p.log })) ∧
      e.level = Level.info ∧ ed.level = Level.debug ∧ ed.text = e.text) ∧
    (bucketsInOrder t.metrics.durationMetrics.Buckets = true →
      ∃ t' e ed,
        EndFunctionWithDurationSince t p traceNo startTime now nowLog callers
          = Outcome.returned t' { p with log := e :: p.log } ∧
        EndFunctionWithDurationSinceDebug t p traceNo startTime now nowLog callers
          = Outcome.returned t' { p with log := ed :: p.log } ∧
        e.level = Level.info ∧ ed.level = Level.debug ∧ ed.text = e.text) := by
  obtain ⟨L, hL⟩ := getCallerFuncName_all callers
  refine ⟨⟨_, _, _, _, StartFunction_eq t p traceNo now callers L hL,
      StartFunctionDebug_eq t p traceNo now callers L hL, rfl, rfl, rfl⟩,
    ⟨_, _, _, EndFunction_eq t p traceNo now callers L hL,
      EndFunctionDebug_eq t p traceNo now callers L hL, rfl, rfl, rfl⟩, ?_, ?_⟩
  · cases hcheck : (hasChild L t.metrics.durationMetrics.children
        || bucketsInOrder t.metrics.durationMetrics.Buckets)
    · exact ⟨_, _, _, Or.inr
        ⟨EndFunctionWithDurationSince_panics t p traceNo startTime now nowLog callers L hL hcheck,
         EndFunctionWithDurationSinceDebug_panics t p traceNo startTime now nowLog callers L hL
           hcheck⟩, rfl, rfl, rfl⟩
    · exact ⟨_, _, _, Or.inl
        ⟨EndFunctionWithDurationSince_returns t p traceNo startTime now nowLog callers L hL hcheck,
         EndFunctionWithDurationSinceDebug_returns t p traceNo startTime now nowLog callers L hL
           hcheck⟩, rfl, rfl, rfl⟩
  · intro hb
    exact ⟨_, _, _,
      EndFunctionWithDurationSince_returns t p traceNo startTime now nowLog callers L hL
        (check_of_inOrder L _ hb),
      EndFunctionWithDurationSinceDebug_returns t p traceNo startTime now nowLog callers L hL
        (check_of_inOrder L _ hb), rfl, rfl, rfl⟩

theorem debug_variants_same_metrics_witness :
    bucketsInOrder ordersTracer.metrics.durationMetrics.Buckets = true ∧
    ∃ t' e ed,
      EndFunctionWithDurationSince ordersTracer ordersProcess "tx-1".toList
        1793491200000000000 1793491200010000000 1793491200010000500
        [Frame.func "main.Handler".toList]
          = Outcome.returned t' { ordersProcess with log := e :: ordersProcess.log } ∧
      EndFunctionWithDurationSinceDebug ordersTracer ordersProcess "tx-1".toList
        1793491200000000000 1793491200010000000 1793491200010000500
        [Frame.func "main.Handler".toList]
          = Outcome.returned t' { ordersProcess with log := ed :: ordersProcess.log } ∧
      e.level = Level.info ∧ ed.level = Level.debug ∧ ed.text = e.text :=
  ⟨rfl,
   (debug_variants_same_metrics ordersTracer ordersProcess "tx-1".toList
     1793491200000000000 1793491200010000000 1793491200010000500
     [Frame.func "main.Handler".toList]).2.2.2 rfl⟩

/-! ## Caller-name resolution -/

/-- Two ways of cutting a string after a separator that does not occur in what
follows give the same last part. -/
theorem last_part_unique (sep : Char) (pre pre' a b : Str)
    (h : pre ++ sep :: a = pre' ++ sep :: b) (ha : sep ∉ a) (hb : sep ∉ b) : a = b := by
  rcases List.append_eq_append_iff.mp h with ⟨c, -, hc⟩ | ⟨c, -, hc⟩
  · cases c with
    | nil => simpa using hc
    | cons x xs =>
      exfalso
      simp only [List.cons_append, List.cons.injEq] at hc
      exact ha (by rw [hc.2]; simp)
  · cases c with
    | nil => simpa using hc.symm
    | cons x xs =>
      exfalso
      simp only [List.cons_append, List.cons.injEq] at hc
      exact hb (by rw [hc.2]; simp)

/-- The label of a name `pre.n` whose last part `n` has no dot is `n`. -/
theorem getCallerFuncName_qualified (m : Frame) (pre n : Str) (rest : List Frame)
    (hn : '.' ∉ n) :
    getCallerFuncName (m :: Frame.func (pre ++ '.' :: n) :: rest) = some n := by
  rw [getCallerFuncName_eq]
  simp only [List.head?_cons, FuncForPC, FuncName]
  obtain ⟨seg, hs, hseg, hcase⟩ := sliceFrom_LastIndex '.' (pre ++ '.' :: n)
  rw [hs]
  rcases hcase with ⟨hnot, -⟩ | ⟨pre', hpre'⟩
  · exact absurd (by simp) hnot
  · rw [last_part_unique '.' pre pre' n seg hpre' hn hseg]

/-- C6, as stated, fails: two different methods of one package, `main.(*A).Run` and
`main.(*B).Run`, receive the same label `Run`. -/
theorem distinct_functions_share_label :
    "main.(*A).Run".toList ≠ "main.(*B).Run".toList ∧
    getCallerFuncName [methodFrame "StartFunction", Frame.func "main.(*A).Run".toList]
      = some "Run".toList ∧
    getCallerFuncName [methodFrame "StartFunction", Frame.func "main.(*B).Run".toList]
      = some "Run".toList := by
  refine ⟨by decide, ?_, ?_⟩
  · exact getCallerFuncName_qualified _ "main.(*A)".toList "Run".toList [] (by decide)
  · exact getCallerFuncName_qualified _ "main.(*B)".toList "Run".toList [] (by decide)

/-- C6, amended. For every fully qualified name `q` of the frame that called the
method, the label is the part of `q` after its last dot (all of `q` when it has
none) and holds no dot; and two functions whose names differ after the last dot
receive different labels. -/
theorem caller_label_is_last_dot_suffix (m : Frame) (q : Str) (rest : List Frame) :
    (∃ L, getCallerFuncName (m :: Frame.func q :: rest) = some L ∧ '.' ∉ L ∧
      (('.' ∉ q ∧ L = q) ∨ ∃ pre, q = pre ++ '.' :: L)) ∧
    (∀ pre1 pre2 n1 n2 : Str, '.' ∉ n1 → '.' ∉ n2 → n1 ≠ n2 →
      getCallerFuncName (m :: Frame.func (pre1 ++ '.' :: n1) :: rest) ≠
        getCallerFuncName (m :: Frame.func (pre2 ++ '.' :: n2) :: rest)) := by
  constructor
  · obtain ⟨seg, hs, hseg, hcase⟩ := sliceFrom_LastIndex '.' q
    refine ⟨seg, ?_, hseg, hcase⟩
    rw [getCallerFuncName_eq]
    simpa only [List.head?_cons, FuncForPC, FuncName] using hs
  · intro pre1 pre2 n1 n2 h1 h2 hne h
    rw [getCallerFuncName_qualified m pre1 n1 rest h1,
      getCallerFuncName_qualified m pre2 n2 rest h2] at h
    exact hne (Option.some.inj h)

theorem caller_label_is_last_dot_suffix_witness :
    (∃ L, getCallerFuncName
        [methodFrame "EndFunction", Frame.func "github.com/acme/orders.Handler".toList]
          = some L ∧ '.' ∉ L ∧
      (('.' ∉ "github.com/acme/orders.Handler".toList ∧
          L = "github.com/acme/orders.Handler".toList) ∨
        ∃ pre, "github.com/acme/orders.Handler".toList = pre ++ '.' :: L)) ∧
    getCallerFuncName
        [methodFrame "EndFunction", Frame.func ("github.com/acme/orders".toList ++ '.' :: "Create".toList)] ≠
      getCallerFuncName
        [methodFrame "EndFunction", Frame.func ("github.com/acme/orders".toList ++ '.' :: "Cancel".toList)] :=
  ⟨(caller_label_is_last_dot_suffix (methodFrame "EndFunction")
      "github.com/acme/orders.Handler".toList []).1,
   (caller_label_is_last_dot_suffix (methodFrame "EndFunction")
      "github.com/acme/orders.Handler".toList []).2
      "github.com/acme/orders".toList "github.com/acme/orders".toList
      "Create".toList "Cancel".toList (by decide) (by decide) (by decide)⟩

/-! ## Duration -/

/-- Division of a non-negative `int64` count of nanoseconds by 1,000,000. -/
theorem truncation_bounds (x : Int) (h0 : 0 ≤ x) (hfit : x ≤ maxInt64) :
    saturateInt64 x = x ∧ Int.tdiv x 1000000 * 1000000 ≤ x ∧
      x < (Int.tdiv x 1000000 + 1) * 1000000 ∧
      (10 * 1000000 ≤ x → 10 ≤ Int.tdiv x 1000000) := by
  have hd : Int.tdiv x 1000000 = x / 1000000 := Int.tdiv_eq_ediv h0 (by norm_num)
  have h1 : ¬ x < minInt64 := by
    simp only [minInt64]; omega
  have h2 : ¬ maxInt64 < x := by omega
  refine ⟨by simp [saturateInt64, h1, h2], ?_, ?_, ?_⟩
  · rw [hd]; omega
  · rw [hd]; omega
  · intro h; rw [hd]; omega

/-- C9, as stated, fails: with the zero `time.Time` as start instant and a clock
reading of November 1, 2026, on a tracer with the default boundaries, the call
returns and the histogram observes 9223372036854 (the largest duration, in
milliseconds), not the 63929088000000 milliseconds elapsed. -/
theorem duration_saturates :
    zeroTime ≤ 1793491200000000000 ∧
    (EndFunctionWithDurationSince ordersTracer ordersProcess "tx-1".toList zeroTime
        1793491200000000000 1793491200000000000
        [Frame.func "main.Handler".toList]).isReturned = true ∧
    (EndFunctionWithDurationSince ordersTracer ordersProcess "tx-1".toList zeroTime
        1793491200000000000 1793491200000000000
        [Frame.func "main.Handler".toList]).tracer.metrics.durationMetrics.observed
          "Handler".toList = [9223372036854] ∧
    Int.tdiv (1793491200000000000 - zeroTime) 1000000 = 63929088000000 ∧
    (9223372036854 : Int) ≠ Int.tdiv (1793491200000000000 - zeroTime) 1000000 := by
  refine ⟨by decide, rfl, rfl, by decide, by decide⟩

/-- C9, amended. On a tracer whose bucket boundaries are in increasing order, for
every start instant `s` and clock reading `t ≥ s` inside
`EndFunctionWithDurationSince` with `t - s` at most the largest `int64` count of
nanoseconds, the call returns and the value observed in the duration histogram is
`d = (t - s) / 1,000,000` rounded toward zero, so `d ≤ elapsed ms < d + 1` (an
elapsed time of at least 10 ms is observed as at least 10), and the duration in the
log line is the same `d`. -/
theorem duration_is_truncated_milliseconds (t : Tracer) (p : Process) (traceNo : Str)
    (startTime nowSince nowLog : Time) (callers : List Frame)
    (hb : bucketsInOrder t.metrics.durationMetrics.Buckets = true)
    (h0 : startTime ≤ nowSince) (hfit : nowSince - startTime ≤ maxInt64) :
    ∃ L t' p' d,
      getCallerFuncName (methodFrame "EndFunctionWithDurationSince" :: callers) = some L ∧
      EndFunctionWithDurationSince t p traceNo startTime nowSince nowLog callers
        = Outcome.returned t' p' ∧
      d = Int.tdiv (nowSince - startTime) 1000000 ∧
      t'.metrics.durationMetrics.observed L = d :: t.metrics.durationMetrics.observed L ∧
      d * 1000000 ≤ nowSince - startTime ∧ nowSince - startTime < (d + 1) * 1000000 ∧
      (10 * 1000000 ≤ nowSince - startTime → 10 ≤ d) ∧
      p'.log =
        { level := Level.info, format := fmtEndDuration,
          args := [Arg.str p.namespace_, Arg.str traceNo, Arg.int (currentMillis nowLog),
                   Arg.int d] } :: p.log := by
  obtain ⟨L, hL⟩ := getCallerFuncName_all callers
  obtain ⟨hsat, hlo, hhi, hten⟩ :=
    truncation_bounds (nowSince - startTime) (Int.sub_nonneg.mpr h0) hfit
  have hms : Milliseconds (Since nowSince startTime)
      = Int.tdiv (nowSince - startTime) 1000000 := by
    simp only [Milliseconds, Since]
    rw [hsat]
  refine ⟨L, _, _, Int.tdiv (nowSince - startTime) 1000000, hL _,
    EndFunctionWithDurationSince_returns t p traceNo startTime nowSince nowLog callers L hL
      (check_of_inOrder L _ hb),
    rfl, ?_, hlo, hhi, hten, ?_⟩
  · simp [HistogramVec.observed_record, hms]
  · simp [hms]

theorem duration_is_truncated_milliseconds_witness :
    bucketsInOrder ordersTracer.metrics.durationMetrics.Buckets = true ∧
    (1793491200000000000 : Int) ≤ 1793491200010999999 ∧
    (1793491200010999999 : Int) - 1793491200000000000 ≤ maxInt64 ∧
    ∃ L t' p' d,
      getCallerFuncName (methodFrame "EndFunctionWithDurationSince"
        :: [Frame.func "main.Handler".toList]) = some L ∧
      EndFunctionWithDurationSince ordersTracer ordersProcess "tx-1".toList
        1793491200000000000 1793491200010999999 1793491200011000000
        [Frame.func "main.Handler".toList] = Outcome.returned t' p' ∧
      d = Int.tdiv (1793491200010999999 - 1793491200000000000) 1000000 ∧
      t'.metrics.durationMetrics.observed L =
        d :: ordersTracer.metrics.durationMetrics.observed L ∧
      d * 1000000 ≤ 1793491200010999999 - 1793491200000000000 ∧
      1793491200010999999 - 1793491200000000000 < (d + 1) * 1000000 ∧
      (10 * 1000000 ≤ (1793491200010999999 : Int) - 1793491200000000000 → 10 ≤ d) ∧
      p'.log =
        { level := Level.info, format := fmtEndDuration,
          args := [Arg.str ordersProcess.namespace_, Arg.str "tx-1".toList,
                   Arg.int (currentMillis 1793491200011000000), Arg.int d] }
          :: ordersProcess.log :=
  ⟨rfl, by decide, by decide,
   duration_is_truncated_milliseconds ordersTracer ordersProcess "tx-1".toList
     1793491200000000000 1793491200010999999 1793491200011000000
     [Frame.func "main.Handler".toList] rfl (by decide) (by decide)⟩

/-! ## Evaluation on concrete inputs -/

theorem deriveNamespace_path :
    deriveNamespace "github.com/acme/my-app_v2!!".toList = some "myappv2".toList := by
  decide

theorem ReplaceAllString_runs :
    ReplaceAllString ['_'] false "a--b c!".toList = "a_b c_".toList := by decide

theorem LastIndex_path : LastIndex '/' "a/b/c".toList = 3 ∧ LastIndex '/' "abc".toList = -1 := by
  decide

/-- The bootstrap of module `orders` in a fresh process. -/
theorem MustGetTracer_orders :
    MustGetTracer acmeEnv freshProcess "orders".toList []
      = Except.ok (ordersTracer, ordersProcess) := by
  rfl

/-- A second bootstrap of the same module panics on registration. -/
theorem MustGetTracer_twice :
    (MustGetTracer acmeEnv ordersProcess "orders".toList []).toOption.isSome = false := by
  rfl

theorem MustGetTracer_no_build_info :
    (MustGetTracer { acmeEnv with buildInfo := none } freshProcess "orders".toList []).toOption.isSome
      = false := by
  rfl

/-- The stack walk resolves the caller of the method, not the method or the helper. -/
theorem getCallerFuncName_handler :
    getCallerFuncName
      [methodFrame "StartFunction", Frame.func "github.com/acme/orders.Handler".toList,
       Frame.func "main.main".toList] = some "Handler".toList := by
  decide

/-- The scenario of module `orders`: `StartFunction`, then, 10 ms later,
`EndFunctionWithDurationSince` with the returned start time, both from `Handler`. -/
theorem orders_scenario :
    (StartFunction ordersTracer ordersProcess "tx-1".toList 1793491200000000000
        [Frame.func "github.com/acme/orders.Handler".toList]).map
      (fun r =>
        ((EndFunctionWithDurationSince r.2.1 r.2.2 "tx-1".toList r.1
            1793491200010000000 1793491200010000500
            [Frame.func "github.com/acme/orders.Handler".toList]).isReturned,
         (EndFunctionWithDurationSince r.2.1 r.2.2 "tx-1".toList r.1
            1793491200010000000 1793491200010000500
            [Frame.func "github.com/acme/orders.Handler".toList]).tracer.metrics.countStartMetrics.value
              "Handler".toList,
         (EndFunctionWithDurationSince r.2.1 r.2.2 "tx-1".toList r.1
            1793491200010000000 1793491200010000500
            [Frame.func "github.com/acme/orders.Handler".toList]).tracer.metrics.countEndMetrics.value
              "Handler".toList,
         (EndFunctionWithDurationSince r.2.1 r.2.2 "tx-1".toList r.1
            1793491200010000000 1793491200010000500
            [Frame.func "github.com/acme/orders.Handler".toList]).tracer.metrics.durationMetrics.observed
              "Handler".toList,
         (EndFunctionWithDurationSince r.2.1 r.2.2 "tx-1".toList r.1
            1793491200010000000 1793491200010000500
            [Frame.func "github.com/acme/orders.Handler".toList]).process.log.map LogEntry.level))
      = some (true, 1, 1, [10], [Level.info, Level.info]) := by
  rfl

/-- The check of the backend on the default boundaries, on 3, 1, 2 and on a repeated
boundary. -/
theorem bucketsInOrder_examples :
    bucketsInOrder ProcessTimeBuckets = true ∧ bucketsInOrder [3, 1, 2] = false ∧
    bucketsInOrder [1, 1] = false ∧ bucketsInOrder [1, Float64.posInf] = true ∧
    bucketsInOrder [1, Float64.nan, 0] = true := by
  decide

/-- Once the child exists, a later call on it does not run the check again. -/
theorem existing_child_is_not_checked :
    ({ unorderedTracer.metrics.durationMetrics with
        children := [("Handler".toList, [5])] } : HistogramVec).Observe "Handler".toList 7
      = some { unorderedTracer.metrics.durationMetrics with
          children := [("Handler".toList, [7, 5])] } := by
  rfl

end gotracing
